import Mathlib

/-!
Verification of the batch orchestration core in `src/company_news/query.py`.

The Python module dispatches one remote `query` task per non-empty input
line, then polls `ray.wait` with `timeout=1`, draining one ready handle per
iteration, appending its result, emitting progress through an optional
`tracer`, and sleeping one second at the end of every iteration.

Shallow embedding choices:
* Dates (`datetime.datetime`) are modelled as `Int`; only their ordering is
  used by the code under verification.
* The external call inside `query` (the `chat` helper) either returns an
  output string or raises; this is modelled by `ChatOutcome`.  The
  `try/except` in `query` is the `match` in the Lean `query`.
* A `ray` handle is the index (`Nat`) of its job in the refined text list.
  `ray.wait(unready, num_returns=1, timeout=1)` is modelled by an external
  schedule `Nat → Option Nat`: at loop iteration `i` it either reports one
  pending handle ready or times out with none ready.
* The optional `tracer` is `Option Unit`; calling `.markdown` on an absent
  tracer is Python's `AttributeError`, modelled as the `Except.error`
  branch of `step`.
* The float expression `completed_jobs / len(texts) * 100.` together with
  the `f"{p:.0f}"` format is modelled exactly by `pctDisplay`:
  round-half-to-even of the exact rational value, computed with integer
  arithmetic.  At every concrete value appearing in the theorems below the
  float arithmetic is exact, so the model agrees with the float display.
* The `while` loop runs on explicit fuel: `RunResult.running` means the
  fuel was exhausted with handles still pending (the real loop would keep
  iterating), `.done` is a normal return, `.exn` an escaped exception.
-/

set_option autoImplicit false

namespace CompanyNews

/-- Outcome of the external call made inside one unit of work: the `chat`
helper either returns a response whose `output` field is a string, or
raises an exception (carried here as its message). -/
inductive ChatOutcome where
  | success (output : String)
  | failure (err : String)
deriving DecidableEq, Repr

/-- `true` iff the external call returned normally. -/
def ChatOutcome.isSuccess : ChatOutcome → Bool
  | .success _ => true
  | .failure _ => false

/-- The per-job result dictionary built by `query` (src lines 21-40).
`output` is `none` exactly when the dictionary has no `output` key (the
failure branch builds `{query, start, end, error}` only).  The success
branch also carries `response`, `model` and `runtime` metadata, which no
claim mentions and which is not modelled. -/
structure TaskResult where
  query : String
  start : Int
  end_ : Int
  output : Option String
  error : Option String
deriving DecidableEq, Repr

/-- Embedding of the remote function `query` (src lines 7-40): the body is
wrapped in `try/except`, so it always returns a dictionary — on success
with `error = None` and the output present, on failure with `error = e`
and no `output` key.  No exception escapes. -/
def query (text : String) (start end_ : Int) : ChatOutcome → TaskResult
  | .success out => ⟨text, start, end_, some out, none⟩
  | .failure e => ⟨text, start, end_, none, some e⟩

/-- Python's `str.strip()`: drop whitespace from both ends.  Modelled
directly over the character list so that it is computable by the kernel;
on the whitespace characters exercised here (space, tab, newline,
carriage return) it agrees with Python. -/
def pyStrip (s : String) : String :=
  ⟨((s.data.dropWhile Char.isWhitespace).reverse.dropWhile Char.isWhitespace).reverse⟩

/-- Python's `str.split("\n")` on the character list: splitting the empty
string yields `[""]`, and every newline separates two (possibly empty)
fields, exactly as in Python. -/
def splitNl : List Char → List (List Char)
  | [] => [[]]
  | c :: cs =>
    match splitNl cs with
    | [] => [[]]
    | g :: gs => if c = '\n' then [] :: g :: gs else (c :: g) :: gs

/-- Python's `s.split("\n")` as a `String` operation. -/
def pySplitLines (s : String) : List String :=
  (splitNl s.data).map (fun l => ⟨l⟩)

/-- `refined = [t.strip() for t in texts if t.strip()]` (src line 163). -/
def refined (texts : List String) : List String :=
  (texts.map pyStrip).filter (fun t => t != "")

/-- The immutable inputs of one `batch` call: the raw `texts` argument,
the shared date bounds, and for each handle the outcome of its unit of
work on the executor. -/
structure BatchEnv where
  texts : List String
  start : Int
  end_ : Int
  outcomes : Nat → ChatOutcome

/-- Number of jobs submitted: one per surviving line of `refined`. -/
def BatchEnv.numJobs (env : BatchEnv) : Nat :=
  (refined env.texts).length

/-- `ray.get(handle)` in the core's usage: the remote `query` applied to
the handle's text and the shared bounds, resolved with that unit's
outcome. -/
def rayGet (env : BatchEnv) (h : Nat) : TaskResult :=
  query ((refined env.texts).getD h "") env.start env.end_ (env.outcomes h)

/-- The displayed completion percent: `f"{p:.0f}"` applied to
`p = completed_jobs / len(texts) * 100.` (src line 174).  The float
expression's exact value is the rational `100 * completed / total`, and
`:.0f` rounds it to the nearest integer with ties to even; this computes
that rounding with integer arithmetic (`q` the floor, `r/total` the
fractional part).  At every value appearing in the theorems below the
float arithmetic is exact, so this agrees with the float display. -/
def pctDisplay (completed total : Nat) : Nat :=
  let q := (100 * completed) / total
  let r := (100 * completed) % total
  if 2 * r < total then q
  else if total < 2 * r then q + 1
  else if q % 2 = 0 then q else q + 1

/-- One report sent to the tracer for one completed job (src lines
175-181): the header markdown, the completion-fraction line (kept here as
its numerator, denominator and displayed rounded percent), and the body
(error line or output text); the html divider closes the report. -/
structure ProgressEvent where
  header : String
  completed : Nat
  total : Nat
  pct : Nat
  body : String
deriving DecidableEq, Repr

/-- Builds the progress report for `result` as the `completed`-th
completion: header `#### {query}`, percent `completed / len(texts) * 100`
rounded for display, body `**Error:** e` when `error` is truthy and the
output text otherwise. -/
def mkEvent (env : BatchEnv) (r : TaskResult) (completed : Nat) : ProgressEvent :=
  { header := "#### " ++ r.query
    completed := completed
    total := env.texts.length
    pct := pctDisplay completed env.texts.length
    body :=
      match r.error with
      | some e => "**Error:** " ++ e
      | none => r.output.getD "" }

/-- The loop-local state of `batch` (src lines 165-167): `unready`,
`completed` (`completed_jobs`), `results`, plus instrumentation that
records observable effects — `done` lists the handles whose results are in
`results` in completion order, `events` the tracer reports, `iter` the
number of loop iterations executed, `sleeps` the number of
`asyncio.sleep(1)` calls, `emptyIters` the iterations whose `ray.wait`
returned no ready handle. -/
structure LoopState where
  unready : List Nat
  done : List Nat
  completed : Nat
  results : List TaskResult
  events : List ProgressEvent
  iter : Nat
  sleeps : Nat
  emptyIters : Nat
deriving DecidableEq, Repr

/-- State after fan-out (src lines 164-167): all handles pending, nothing
completed, no effect yet. -/
def initState (env : BatchEnv) : LoopState :=
  { unready := List.range env.numJobs
    done := []
    completed := 0
    results := []
    events := []
    iter := 0
    sleeps := 0
    emptyIters := 0 }

/-- `ray.wait(unready, num_returns=1, timeout=1)` at iteration `i`: the
schedule either makes one pending handle ready (it is returned and removed
from the pending list) or the call times out and returns no ready handle
with the pending list unchanged. -/
def rayWait (sched : Nat → Option Nat) (i : Nat) (unready : List Nat) :
    List Nat × List Nat :=
  match sched i with
  | some h => if h ∈ unready then ([h], unready.erase h) else ([], unready)
  | none => ([], unready)

/-- The empty branch of an iteration (src line 169 timing out, then line
183): pending handles, results, counter and events unchanged; one second
slept. -/
def emptyNext (s : LoopState) : LoopState :=
  { s with iter := s.iter + 1, sleeps := s.sleeps + 1, emptyIters := s.emptyIters + 1 }

/-- The ready branch of an iteration (src lines 170-183): fetch the ready
handle's result, append it, bump `completed_jobs`, emit the progress
report, sleep one second. -/
def readyNext (env : BatchEnv) (s : LoopState) (h : Nat) (unready : List Nat) :
    LoopState :=
  let result := rayGet env h
  { unready := unready
    done := s.done ++ [h]
    completed := s.completed + 1
    results := s.results ++ [result]
    events := s.events ++ [mkEvent env result (s.completed + 1)]
    iter := s.iter + 1
    sleeps := s.sleeps + 1
    emptyIters := s.emptyIters }

/-- Message of the exception escaping `batch` when the ready branch
dereferences an absent tracer (src line 175 with `tracer=None`). -/
def attrErrMsg : String :=
  "AttributeError: NoneType object has no attribute markdown"

/-- One iteration of the `while unready:` body (src lines 169-183).  On
the ready branch the tracer is dereferenced: with `tracer=None` the
iteration raises `AttributeError` and the exception escapes `batch`. -/
def step (env : BatchEnv) (tracer : Option Unit) (sched : Nat → Option Nat)
    (s : LoopState) : Except String LoopState :=
  match rayWait sched s.iter s.unready with
  | ([], _) => .ok (emptyNext s)
  | (h :: _, unready1) =>
    match tracer with
    | none => .error attrErrMsg
    | some _ => .ok (readyNext env s h unready1)

/-- Outcome of running the loop on a given amount of fuel: a normal
return of `results` with the final state, fuel exhaustion with handles
still pending, or an escaped exception. -/
inductive RunResult where
  | done (results : List TaskResult) (final : LoopState)
  | running (s : LoopState)
  | exn (e : String)
deriving DecidableEq, Repr

/-- `true` iff the loop returned normally. -/
def RunResult.isDone : RunResult → Bool
  | .done _ _ => true
  | _ => false

/-- `true` iff the fuel ran out with handles still pending. -/
def RunResult.isRunning : RunResult → Bool
  | .running _ => true
  | _ => false

/-- The progress events of a normal return, if any. -/
def RunResult.doneEvents : RunResult → Option (List ProgressEvent)
  | .done _ fin => some fin.events
  | _ => none

/-- Projects the state out of a non-raising iteration. -/
def stepState : Except String LoopState → Option LoopState
  | .ok s => some s
  | .error _ => none

/-- The `while unready:` loop (src lines 168-183) on explicit fuel. -/
def loopGo (env : BatchEnv) (tracer : Option Unit) (sched : Nat → Option Nat) :
    Nat → LoopState → RunResult
  | 0, s => if s.unready.isEmpty then .done s.results s else .running s
  | fuel + 1, s =>
    if s.unready.isEmpty then .done s.results s
    else
      match step env tracer sched s with
      | .error e => .exn e
      | .ok s1 => loopGo env tracer sched fuel s1

/-- At most `n` iterations of the loop body, stopping early when
`unready` empties; used to speak about every state the loop reaches. -/
def stepsN (env : BatchEnv) (tracer : Option Unit) (sched : Nat → Option Nat) :
    Nat → LoopState → Except String LoopState
  | 0, s => .ok s
  | n + 1, s =>
    if s.unready.isEmpty then .ok s
    else
      match step env tracer sched s with
      | .error e => .error e
      | .ok s1 => stepsN env tracer sched n s1

/-- Embedding of `batch` (src lines 159-184): refine the input lines,
submit one task per survivor (handles `0..numJobs-1`), run the loop,
return `results`. -/
def batchRun (texts : List String) (start end_ : Int)
    (outcomes : Nat → ChatOutcome) (tracer : Option Unit)
    (sched : Nat → Option Nat) (fuel : Nat) : RunResult :=
  let env : BatchEnv := ⟨texts, start, end_, outcomes⟩
  loopGo env tracer sched fuel (initState env)

/-- `texts = [s.strip() for s in inputs["texts"].strip().split("\n") if s.strip()]`
(src lines 124, 127). -/
def enterTexts (raw : String) : List String :=
  ((pySplitLines (pyStrip raw)).map pyStrip).filter (fun s => s != "")

/-- Validation message attached to the `texts` field (src line 131). -/
def msgTexts : String := "Please specify a query to search for news."

/-- Validation message attached to the `start` field (src line 133). -/
def msgStart : String := "Must be before or equal to end date."

/-- The payload handed to `Launch` when validation passes (src lines
137-141): exactly the inputs later forwarded by `run_batch` to `batch`. -/
structure LaunchPayload where
  texts : List String
  start : Int
  end_ : Int
deriving DecidableEq, Repr

/-- Embedding of the validation part of the entry point `enter` (src
lines 122-141): parse and cleanse the text block, collect field-keyed
errors into an `InputsError`, raise it when non-empty, otherwise launch
the batch with the cleansed inputs.  Date parsing is assumed done (bounds
arrive as values); `Except.error` is the raised `InputsError`, carrying
its (field, message) pairs. -/
def enter (raw : String) (start end_ : Int) :
    Except (List (String × String)) LaunchPayload :=
  let texts := enterTexts raw
  let e1 := if texts = [] then [("texts", msgTexts)] else []
  let e2 := if start > end_ then [("start", msgStart)] else []
  let errs := e1 ++ e2
  if errs = [] then .ok ⟨texts, start, end_⟩ else .error errs

/-- The (field, message) pairs of a raised `InputsError`, empty on a
successful launch. -/
def errorsOf (r : Except (List (String × String)) LaunchPayload) :
    List (String × String) :=
  match r with
  | .error errs => errs
  | .ok _ => []

/-! Concrete executors and schedules used to evaluate the model. -/

/-- An executor on which every unit of work succeeds. -/
def outcAllOk : Nat → ChatOutcome := fun _ => .success "ok"

/-- An executor on which job 0 succeeds and every other job fails. -/
def outcMixed : Nat → ChatOutcome :=
  fun n => if n = 0 then .success "ok" else .failure "boom"

/-- A schedule making handle `i` ready at loop iteration `i`. -/
def schedSeq : Nat → Option Nat := fun n => some n

/-- A schedule on which `ray.wait` always times out: no handle ever
becomes ready. -/
def schedNever : Nat → Option Nat := fun _ => none

/-- A schedule making handle 0 ready at the first iteration and nothing
else ever: handle 1 is permanently stuck while job 0 resolves. -/
def schedOnly0 : Nat → Option Nat := fun i => if i = 0 then some 0 else none

/-- The input lines of the spec's walk-through scenario: two queries and
two blank lines. -/
def texts4 : List String := ["Acme Corp", "", "  ", "Globex"]

/-- Outcomes for the walk-through scenario: the first surviving job
(Acme Corp) succeeds, the second (Globex) fails. -/
def outc4 : Nat → ChatOutcome :=
  fun n => if n = 0 then .success "* 2024-01-02 - news" else .failure "boom"

/-- The result list of the two-job all-success run used as a witness. -/
def witAllOkRes : List TaskResult :=
  [⟨"Acme", 0, 0, some "ok", none⟩, ⟨"Globex", 0, 0, some "ok", none⟩]

/-- The final loop state of the two-job all-success run used as a
witness. -/
def witAllOkFin : LoopState :=
  { unready := [], done := [0, 1], completed := 2, results := witAllOkRes
    events := [⟨"#### Acme", 1, 2, 50, "ok"⟩, ⟨"#### Globex", 2, 2, 100, "ok"⟩]
    iter := 2, sleeps := 2, emptyIters := 0 }

/-- The result list of the two-job mixed run used as a witness. -/
def witMixedRes : List TaskResult :=
  [⟨"Acme", 0, 0, some "ok", none⟩, ⟨"Bad", 0, 0, none, some "boom"⟩]

/-- The final loop state of the two-job mixed run used as a witness. -/
def witMixedFin : LoopState :=
  { unready := [], done := [0, 1], completed := 2, results := witMixedRes
    events := [⟨"#### Acme", 1, 2, 50, "ok"⟩,
               ⟨"#### Bad", 2, 2, 100, "**Error:** boom"⟩]
    iter := 2, sleeps := 2, emptyIters := 0 }

/-- The loop state after one productive iteration of the two-job
all-success run, used as a witness for the loop invariant. -/
def witMidState : LoopState :=
  { unready := [1], done := [0], completed := 1
    results := [⟨"Acme", 0, 0, some "ok", none⟩]
    events := [⟨"#### Acme", 1, 2, 50, "ok"⟩]
    iter := 1, sleeps := 1, emptyIters := 0 }

/-- The loop state after one unproductive iteration of a one-job run,
used as a witness for the empty branch. -/
def witEmptyState : LoopState :=
  { unready := [0], done := [], completed := 0, results := [], events := []
    iter := 1, sleeps := 1, emptyIters := 1 }

/-! The batch-state invariant of the orchestration loop. -/

/-- The invariant of `BatchState`: the completed counter equals the
number of results, each result is the fetched outcome of the handle
recorded for it in completion order, and the pending handles together
with the drained ones are exactly the submitted handles `0..numJobs-1`
(as a permutation, so no handle is lost or duplicated). -/
def WF (env : BatchEnv) (s : LoopState) : Prop :=
  s.completed = s.results.length ∧
  s.results = s.done.map (rayGet env) ∧
  (s.unready ++ s.done).Perm (List.range env.numJobs)

/-! Helper lemmas about one iteration. -/

lemma rayWait_cons {sched : Nat → Option Nat} {i : Nat} {u : List Nat}
    {h : Nat} {t rest : List Nat} (he : rayWait sched i u = (h :: t, rest)) :
    sched i = some h ∧ h ∈ u ∧ rest = u.erase h := by
  cases hs : sched i with
  | none => simp [rayWait, hs] at he
  | some h2 =>
    by_cases hm : h2 ∈ u
    · simp only [rayWait, hs, if_pos hm, Prod.mk.injEq, List.cons.injEq] at he
      obtain ⟨⟨rfl, -⟩, rfl⟩ := he
      exact ⟨rfl, hm, rfl⟩
    · simp [rayWait, hs, if_neg hm] at he

lemma rayWait_nil {sched : Nat → Option Nat} {i : Nat} {u rest : List Nat}
    (he : rayWait sched i u = ([], rest)) : rest = u := by
  cases hs : sched i with
  | none =>
    simp only [rayWait, hs, Prod.mk.injEq] at he
    exact he.2.symm
  | some h2 =>
    by_cases hm : h2 ∈ u
    · simp [rayWait, hs, if_pos hm] at he
    · simp only [rayWait, hs, if_neg hm, Prod.mk.injEq] at he
      exact he.2.symm

lemma step_ok_cases {env : BatchEnv} {tr : Option Unit}
    {sched : Nat → Option Nat} {s s1 : LoopState}
    (hok : step env tr sched s = .ok s1) :
    ((rayWait sched s.iter s.unready).1 = [] ∧ s1 = emptyNext s) ∨
    (∃ h, sched s.iter = some h ∧ h ∈ s.unready ∧ tr.isSome = true ∧
      s1 = readyNext env s h (s.unready.erase h)) := by
  unfold step at hok
  cases hr : rayWait sched s.iter s.unready with
  | mk ready rest =>
    rw [hr] at hok
    cases ready with
    | nil =>
      left
      exact ⟨rfl, (Except.ok.inj hok).symm⟩
    | cons h t =>
      right
      obtain ⟨hsf, hm, hrest⟩ := rayWait_cons hr
      cases tr with
      | none => exact Except.noConfusion hok
      | some u =>
        refine ⟨h, hsf, hm, rfl, ?_⟩
        have hs1 := (Except.ok.inj hok).symm
        rw [hrest] at hs1
        exact hs1

lemma step_of_tracer_some (env : BatchEnv) (sched : Nat → Option Nat)
    (s : LoopState) : ∃ s1, step env (some ()) sched s = .ok s1 := by
  unfold step
  cases hr : rayWait sched s.iter s.unready with
  | mk ready rest =>
    cases ready with
    | nil => exact ⟨emptyNext s, rfl⟩
    | cons h t => exact ⟨readyNext env s h rest, rfl⟩

/-! Preservation of the invariant. -/

lemma wf_init (env : BatchEnv) : WF env (initState env) := by
  refine ⟨rfl, rfl, ?_⟩
  simp [initState]

lemma wf_emptyNext {env : BatchEnv} {s : LoopState} (hwf : WF env s) :
    WF env (emptyNext s) := by
  obtain ⟨h1, h2, h3⟩ := hwf
  exact ⟨h1, h2, h3⟩

lemma wf_readyNext {env : BatchEnv} {s : LoopState} {h : Nat}
    (hm : h ∈ s.unready) (hwf : WF env s) :
    WF env (readyNext env s h (s.unready.erase h)) := by
  obtain ⟨h1, h2, h3⟩ := hwf
  refine ⟨?_, ?_, ?_⟩
  · simp [readyNext, h1]
  · simp [readyNext, h2]
  · show (s.unready.erase h ++ (s.done ++ [h])).Perm (List.range env.numJobs)
    have p1 : (s.unready.erase h ++ (s.done ++ [h])).Perm
        (s.unready.erase h ++ (h :: s.done)) :=
      List.Perm.append_left _ (List.perm_append_singleton h s.done)
    have e2 : s.unready.erase h ++ (h :: s.done)
        = (s.unready.erase h ++ [h]) ++ s.done := by
      simp
    have p3 : ((s.unready.erase h ++ [h]) ++ s.done).Perm
        ((h :: s.unready.erase h) ++ s.done) :=
      List.Perm.append_right _ (List.perm_append_singleton h _)
    have p4 : ((h :: s.unready.erase h) ++ s.done).Perm (s.unready ++ s.done) :=
      List.Perm.append_right _ (List.perm_cons_erase hm).symm
    exact (((e2 ▸ p1).trans p3).trans p4).trans h3

lemma step_ok_wf {env : BatchEnv} {tr : Option Unit}
    {sched : Nat → Option Nat} {s s1 : LoopState}
    (hwf : WF env s) (hok : step env tr sched s = .ok s1) : WF env s1 := by
  rcases step_ok_cases hok with ⟨-, rfl⟩ | ⟨h, -, hm, -, rfl⟩
  · exact wf_emptyNext hwf
  · exact wf_readyNext hm hwf

/-! Lemmas about whole runs of the loop. -/

lemma loopGo_done_wf {env : BatchEnv} {tr : Option Unit}
    {sched : Nat → Option Nat} :
    ∀ {fuel : Nat} {s : LoopState} {res : List TaskResult} {fin : LoopState},
      WF env s → loopGo env tr sched fuel s = .done res fin →
      WF env fin ∧ fin.unready = [] ∧ res = fin.results := by
  intro fuel
  induction fuel with
  | zero =>
    intro s res fin hwf hrun
    by_cases he : s.unready.isEmpty
    · simp only [loopGo, he, if_true, RunResult.done.injEq] at hrun
      obtain ⟨rfl, rfl⟩ := hrun
      exact ⟨hwf, List.isEmpty_iff.mp he, rfl⟩
    · simp [loopGo, he] at hrun
  | succ n ih =>
    intro s res fin hwf hrun
    by_cases he : s.unready.isEmpty
    · simp only [loopGo, he, if_true, RunResult.done.injEq] at hrun
      obtain ⟨rfl, rfl⟩ := hrun
      exact ⟨hwf, List.isEmpty_iff.mp he, rfl⟩
    · simp only [loopGo, he, if_false] at hrun
      cases hst : step env tr sched s with
      | error e => rw [hst] at hrun; exact RunResult.noConfusion hrun
      | ok s1 =>
        rw [hst] at hrun
        exact ih (step_ok_wf hwf hst) hrun

lemma loopGo_ne_exn {env : BatchEnv} {sched : Nat → Option Nat} :
    ∀ (fuel : Nat) (s : LoopState) (e : String),
      loopGo env (some ()) sched fuel s ≠ .exn e := by
  intro fuel
  induction fuel with
  | zero =>
    intro s e h
    by_cases he : s.unready.isEmpty <;> simp [loopGo, he] at h
  | succ n ih =>
    intro s e h
    by_cases he : s.unready.isEmpty
    · simp [loopGo, he] at h
    · simp only [loopGo, he, if_false] at h
      obtain ⟨s1, hs1⟩ := step_of_tracer_some env sched s
      rw [hs1] at h
      exact ih s1 e h

lemma stepsN_ok_wf {env : BatchEnv} {tr : Option Unit}
    {sched : Nat → Option Nat} :
    ∀ {n : Nat} {s s1 : LoopState},
      WF env s → stepsN env tr sched n s = .ok s1 → WF env s1 := by
  intro n
  induction n with
  | zero =>
    intro s s1 hwf hrun
    exact (Except.ok.inj hrun) ▸ hwf
  | succ n ih =>
    intro s s1 hwf hrun
    by_cases he : s.unready.isEmpty
    · simp only [stepsN, he, if_true] at hrun
      exact (Except.ok.inj hrun) ▸ hwf
    · simp only [stepsN, he, if_false] at hrun
      cases hst : step env tr sched s with
      | error e => rw [hst] at hrun; exact Except.noConfusion hrun
      | ok s2 =>
        rw [hst] at hrun
        exact ih (step_ok_wf hwf hst) hrun

lemma step_preserves_stuck {env : BatchEnv} {tr : Option Unit}
    {sched : Nat → Option Nat} {hstuck : Nat}
    (hsched : ∀ i, sched i ≠ some hstuck) {s s1 : LoopState}
    (hok : step env tr sched s = .ok s1) (hm : hstuck ∈ s.unready) :
    hstuck ∈ s1.unready := by
  rcases step_ok_cases hok with ⟨-, rfl⟩ | ⟨h, hsf, -, -, rfl⟩
  · exact hm
  · have hne : hstuck ≠ h := by
      intro he
      exact hsched s.iter (he ▸ hsf)
    exact (List.mem_erase_of_ne hne).mpr hm

lemma loopGo_not_done_of_stuck {env : BatchEnv} {tr : Option Unit}
    {sched : Nat → Option Nat} {hstuck : Nat}
    (hsched : ∀ i, sched i ≠ some hstuck) :
    ∀ (fuel : Nat) (s : LoopState), hstuck ∈ s.unready →
      (loopGo env tr sched fuel s).isDone = false := by
  intro fuel
  induction fuel with
  | zero =>
    intro s hm
    have he : s.unready.isEmpty = false := by
      simp [List.isEmpty_iff, List.ne_nil_of_mem hm]
    simp [loopGo, he, RunResult.isDone]
  | succ n ih =>
    intro s hm
    have he : s.unready.isEmpty = false := by
      simp [List.isEmpty_iff, List.ne_nil_of_mem hm]
    simp only [loopGo, he, if_false]
    cases hst : step env tr sched s with
    | error e => simp [RunResult.isDone]
    | ok s1 => exact ih s1 (step_preserves_stuck hsched hst hm)

lemma loopGo_running_of_stuck {env : BatchEnv} {sched : Nat → Option Nat}
    {hstuck : Nat} (hsched : ∀ i, sched i ≠ some hstuck) :
    ∀ (fuel : Nat) (s : LoopState), hstuck ∈ s.unready →
      (loopGo env (some ()) sched fuel s).isRunning = true := by
  intro fuel
  induction fuel with
  | zero =>
    intro s hm
    have he : s.unready.isEmpty = false := by
      simp [List.isEmpty_iff, List.ne_nil_of_mem hm]
    simp [loopGo, he, RunResult.isRunning]
  | succ n ih =>
    intro s hm
    have he : s.unready.isEmpty = false := by
      simp [List.isEmpty_iff, List.ne_nil_of_mem hm]
    simp only [loopGo, he, if_false]
    obtain ⟨s1, hs1⟩ := step_of_tracer_some env sched s
    rw [hs1]
    exact ih s1 (step_preserves_stuck hsched hs1 hm)

/-! Lemmas about the refined input lines and fetched results. -/

lemma refined_of_all_nonempty {texts : List String}
    (h : ∀ t ∈ texts, pyStrip t ≠ "") : refined texts = texts.map pyStrip := by
  unfold refined
  apply List.filter_eq_self.mpr
  intro a ha
  obtain ⟨t, ht, rfl⟩ := List.mem_map.mp ha
  simpa using h t ht

lemma rayGet_of_success {env : BatchEnv} {h : Nat} {o : String}
    (ho : env.outcomes h = .success o) :
    (rayGet env h).output = some o ∧ (rayGet env h).error = none := by
  simp [rayGet, ho, query]

lemma rayGet_of_failure {env : BatchEnv} {h : Nat} {e : String}
    (he : env.outcomes h = .failure e) :
    (rayGet env h).error = some e ∧ (rayGet env h).output = none := by
  simp [rayGet, he, query]

lemma rayGet_error_none {env : BatchEnv} {h : Nat}
    (hs : (env.outcomes h).isSuccess = true) : (rayGet env h).error = none := by
  cases ho : env.outcomes h with
  | success o => simp [rayGet, ho, query]
  | failure e => rw [ho] at hs; simp [ChatOutcome.isSuccess] at hs

lemma loopGo_done_unready {env : BatchEnv} {tr : Option Unit}
    {sched : Nat → Option Nat} :
    ∀ {fuel : Nat} {s : LoopState} {res : List TaskResult} {fin : LoopState},
      loopGo env tr sched fuel s = .done res fin → fin.unready = [] := by
  intro fuel
  induction fuel with
  | zero =>
    intro s res fin hrun
    by_cases he : s.unready.isEmpty
    · simp only [loopGo, he, if_true, RunResult.done.injEq] at hrun
      obtain ⟨-, rfl⟩ := hrun
      exact List.isEmpty_iff.mp he
    · simp [loopGo, he] at hrun
  | succ n ih =>
    intro s res fin hrun
    by_cases he : s.unready.isEmpty
    · simp only [loopGo, he, if_true, RunResult.done.injEq] at hrun
      obtain ⟨-, rfl⟩ := hrun
      exact List.isEmpty_iff.mp he
    · simp only [loopGo, he, if_false] at hrun
      cases hst : step env tr sched s with
      | error e => rw [hst] at hrun; exact RunResult.noConfusion hrun
      | ok s1 => rw [hst] at hrun; exact ih hrun

/-! # Claims -/

/-- Claim C1: for every list of N well-formed non-empty input lines, if
every submitted unit of work succeeds, then `batch` returns a result list
of length exactly N, and every entry in it has its `error` field unset
(`None`). -/
theorem batch_all_success_complete
    (texts : List String) (start end_ : Int) (outcomes : Nat → ChatOutcome)
    (sched : Nat → Option Nat) (fuel : Nat) (res : List TaskResult)
    (fin : LoopState) (r : TaskResult)
    (hlines : ∀ t ∈ texts, pyStrip t ≠ "")
    (hsucc : ∀ i, (outcomes i).isSuccess = true)
    (hrun : batchRun texts start end_ outcomes (some ()) sched fuel
      = .done res fin)
    (hr : r ∈ res) :
    res.length = texts.length ∧ r.error = none := by
  have hrun2 : loopGo ⟨texts, start, end_, outcomes⟩ (some ()) sched fuel
      (initState ⟨texts, start, end_, outcomes⟩) = .done res fin := hrun
  obtain ⟨⟨h1, h2, h3⟩, hemp, rfl⟩ := loopGo_done_wf (wf_init _) hrun2
  rw [hemp] at h3
  simp only [List.nil_append] at h3
  constructor
  · rw [h2, List.length_map, h3.length_eq, List.length_range]
    show (refined texts).length = texts.length
    rw [refined_of_all_nonempty hlines, List.length_map]
  · rw [h2] at hr
    obtain ⟨h0, hh0, rfl⟩ := List.mem_map.mp hr
    exact rayGet_error_none (hsucc h0)

/-- Witness for C1: a concrete two-line batch in which both units
succeed; the run completes with two error-free results. -/
theorem batch_all_success_complete_witness :
    (∀ t ∈ (["Acme", "Globex"] : List String), pyStrip t ≠ "") ∧
    (∀ i : Nat, (outcAllOk i).isSuccess = true) ∧
    batchRun ["Acme", "Globex"] 0 0 outcAllOk (some ()) schedSeq 2
      = .done witAllOkRes witAllOkFin ∧
    (⟨"Acme", 0, 0, some "ok", none⟩ : TaskResult) ∈ witAllOkRes ∧
    (witAllOkRes.length = (["Acme", "Globex"] : List String).length ∧
      (⟨"Acme", 0, 0, some "ok", none⟩ : TaskResult).error = none) :=
  ⟨by decide, fun i => rfl, by decide, by decide,
    batch_all_success_complete ["Acme", "Globex"] 0 0 outcAllOk schedSeq 2
      witAllOkRes witAllOkFin ⟨"Acme", 0, 0, some "ok", none⟩
      (by decide) (fun i => rfl) (by decide) (by decide)⟩

/-- Claim C2: for every batch of N jobs in which some units fail, a
completed run still returns a list of length N (the job count); the
returned list is exactly one fetched result per submitted handle (so a
failing unit never affects the other jobs' results); every failing unit's
result has `error` set and `output` unset, every succeeding unit's result
has `output` set; and with the tracer present no run aborts with an
exception. -/
theorem batch_failures_isolated
    (texts : List String) (start end_ : Int) (outcomes : Nat → ChatOutcome)
    (sched : Nat → Option Nat) (fuel : Nat) (res : List TaskResult)
    (fin : LoopState) (i j : Nat) (e o : String) (fuel2 : Nat) (e2 : String)
    (hrun : batchRun texts start end_ outcomes (some ()) sched fuel
      = .done res fin)
    (hfail : outcomes i = .failure e)
    (hsuccj : outcomes j = .success o) :
    res.length = (refined texts).length ∧
    res.Perm ((List.range (refined texts).length).map
      (rayGet ⟨texts, start, end_, outcomes⟩)) ∧
    (rayGet ⟨texts, start, end_, outcomes⟩ i).error = some e ∧
    (rayGet ⟨texts, start, end_, outcomes⟩ i).output = none ∧
    (rayGet ⟨texts, start, end_, outcomes⟩ j).output = some o ∧
    (rayGet ⟨texts, start, end_, outcomes⟩ j).error = none ∧
    batchRun texts start end_ outcomes (some ()) sched fuel2 ≠ .exn e2 := by
  have hrun2 : loopGo ⟨texts, start, end_, outcomes⟩ (some ()) sched fuel
      (initState ⟨texts, start, end_, outcomes⟩) = .done res fin := hrun
  obtain ⟨⟨h1, h2, h3⟩, hemp, rfl⟩ := loopGo_done_wf (wf_init _) hrun2
  rw [hemp] at h3
  simp only [List.nil_append] at h3
  refine ⟨?_, ?_, (rayGet_of_failure hfail).1, (rayGet_of_failure hfail).2,
    (rayGet_of_success hsuccj).1, (rayGet_of_success hsuccj).2, ?_⟩
  · rw [h2, List.length_map, h3.length_eq, List.length_range]
    rfl
  · rw [h2]
    exact h3.map (rayGet _)
  · exact fun hX => loopGo_ne_exn fuel2 _ e2 hX

/-- Witness for C2: a concrete two-job batch in which job 0 succeeds and
job 1 fails; the run completes, both results are present, and the failing
entry carries the error. -/
theorem batch_failures_isolated_witness :
    batchRun ["Acme", "Bad"] 0 0 outcMixed (some ()) schedSeq 2
      = .done witMixedRes witMixedFin ∧
    outcMixed 1 = .failure "boom" ∧
    outcMixed 0 = .success "ok" ∧
    (witMixedRes.length = (refined ["Acme", "Bad"]).length ∧
      witMixedRes.Perm ((List.range (refined ["Acme", "Bad"]).length).map
        (rayGet ⟨["Acme", "Bad"], 0, 0, outcMixed⟩)) ∧
      (rayGet ⟨["Acme", "Bad"], 0, 0, outcMixed⟩ 1).error = some "boom" ∧
      (rayGet ⟨["Acme", "Bad"], 0, 0, outcMixed⟩ 1).output = none ∧
      (rayGet ⟨["Acme", "Bad"], 0, 0, outcMixed⟩ 0).output = some "ok" ∧
      (rayGet ⟨["Acme", "Bad"], 0, 0, outcMixed⟩ 0).error = none ∧
      batchRun ["Acme", "Bad"] 0 0 outcMixed (some ()) schedSeq 0
        ≠ .exn "x") :=
  ⟨by decide, by decide, by decide,
    batch_failures_isolated ["Acme", "Bad"] 0 0 outcMixed schedSeq 2
      witMixedRes witMixedFin 1 0 "boom" "ok" 0 "x"
      (by decide) (by decide) (by decide)⟩

/-- Claim C3: a failure inside a unit of work never propagates as a
raised fault out of `get` — `rayGet` returns a result whose `error` field
is populated instead (last two conjuncts) — and, in the core's usage
(tracer present), the loop never ends in an exception and a normal return
happens only with `pending` fully drained. -/
theorem query_failure_contained
    (texts : List String) (start end_ : Int) (outcomes : Nat → ChatOutcome)
    (sched : Nat → Option Nat) (fuel : Nat) (s : LoopState) (e : String)
    (res : List TaskResult) (fin : LoopState) (i : Nat) (err : String)
    (hfail : outcomes i = .failure err) :
    loopGo ⟨texts, start, end_, outcomes⟩ (some ()) sched fuel s ≠ .exn e ∧
    (loopGo ⟨texts, start, end_, outcomes⟩ (some ()) sched fuel s
      = .done res fin → fin.unready = []) ∧
    (rayGet ⟨texts, start, end_, outcomes⟩ i).error = some err ∧
    (rayGet ⟨texts, start, end_, outcomes⟩ i).output = none := by
  refine ⟨loopGo_ne_exn fuel s e, ?_,
    (rayGet_of_failure hfail).1, (rayGet_of_failure hfail).2⟩
  intro hdone
  exact loopGo_done_unready hdone

/-- Witness for C3: the concrete mixed two-job run from any starting
state; job 1's failure is contained in its result and the completed run
has drained `pending`. -/
theorem query_failure_contained_witness :
    outcMixed 1 = .failure "boom" ∧
    (loopGo ⟨["Acme", "Bad"], 0, 0, outcMixed⟩ (some ()) schedSeq 2
      (initState ⟨["Acme", "Bad"], 0, 0, outcMixed⟩) ≠ .exn "x" ∧
    (loopGo ⟨["Acme", "Bad"], 0, 0, outcMixed⟩ (some ()) schedSeq 2
        (initState ⟨["Acme", "Bad"], 0, 0, outcMixed⟩)
      = .done witMixedRes witMixedFin → witMixedFin.unready = []) ∧
    (rayGet ⟨["Acme", "Bad"], 0, 0, outcMixed⟩ 1).error = some "boom" ∧
    (rayGet ⟨["Acme", "Bad"], 0, 0, outcMixed⟩ 1).output = none) :=
  ⟨by decide,
    query_failure_contained ["Acme", "Bad"] 0 0 outcMixed schedSeq 2
      (initState ⟨["Acme", "Bad"], 0, 0, outcMixed⟩) "x" witMixedRes
      witMixedFin 1 "boom" (by decide)⟩

/-- Claim C4 fails on the code: on the spec's own scenario input
`["Acme Corp", "", "  ", "Globex"]` (two jobs, two blank lines, Globex's
unit failing) the two progress events report 25% and then 50%, not 50%
and 100%, because src line 174 divides by `len(texts)` — the raw line
count 4 — instead of the job count 2.  This theorem evaluates the
embedded code at that failing input. -/
theorem progress_percent_uses_raw_line_count :
    (batchRun texts4 0 30 outc4 (some ()) schedSeq 2).doneEvents.map
      (fun evs => evs.map (fun ev => (ev.completed, ev.total, ev.pct)))
      = some [(1, 4, 25), (2, 4, 50)] ∧
    (refined texts4).length = 2 := by
  decide

/-- Claim C5 fails on the code: `batch` declares `tracer` optional with
default `None`, but the ready branch dereferences it unconditionally
(src line 175), so a batch with one succeeding job and no tracer raises
`AttributeError` at the first completion instead of dropping the progress
events and returning the result list.  This theorem evaluates the
embedded code at that failing input. -/
theorem batch_absent_tracer_raises :
    batchRun ["Acme"] 0 0 outcAllOk none schedSeq 5 = .exn attrErrMsg ∧
    (batchRun ["Acme"] 0 0 outcAllOk none schedSeq 5).isDone = false := by
  decide

/-- Claim C6: if after splitting on line breaks and trimming there is no
non-empty line, or the start bound is strictly after the end bound, then
`enter` raises a validation error keyed by field name (`texts`, `start`
respectively) and never produces a `Launch` payload, so zero jobs are
submitted and no Executor work is started. -/
theorem enter_validation_blocks_dispatch (raw : String) (start end_ : Int)
    (hbad : enterTexts raw = [] ∨ start > end_) :
    (enter raw start end_).isOk = false ∧
    (enterTexts raw = [] →
      ("texts", msgTexts) ∈ errorsOf (enter raw start end_)) ∧
    (start > end_ →
      ("start", msgStart) ∈ errorsOf (enter raw start end_)) := by
  by_cases ht : enterTexts raw = []
  · by_cases hs : start > end_
    · simp [enter, ht, hs, errorsOf, Except.isOk, Except.toBool]
    · simp [enter, ht, hs, errorsOf, Except.isOk, Except.toBool]
  · by_cases hs : start > end_
    · simp [enter, ht, hs, errorsOf, Except.isOk, Except.toBool]
    · rcases hbad with h | h
      · exact absurd h ht
      · exact absurd h hs

/-- Witness for C6: a blank text block together with a start bound after
the end bound; both field-keyed errors are raised and no launch is
produced. -/
theorem enter_validation_blocks_dispatch_witness :
    (enterTexts "" = [] ∨ (1 : Int) > 0) ∧
    ((enter "" 1 0).isOk = false ∧
      (enterTexts "" = [] → ("texts", msgTexts) ∈ errorsOf (enter "" 1 0)) ∧
      ((1 : Int) > 0 → ("start", msgStart) ∈ errorsOf (enter "" 1 0))) :=
  ⟨by decide, enter_validation_blocks_dispatch "" 1 0 (by decide)⟩

/-- Claim C7: the loop terminates only when `pending` is empty — on any
batch containing a unit whose handle never becomes ready (the other
units may resolve), no amount of fuel makes the loop return a result
list, and in the core's usage (tracer present) it is still running after
every amount of fuel (no per-job timeout is enforced by the core). -/
theorem stuck_unit_stalls_batch
    (texts : List String) (start end_ : Int) (outcomes : Nat → ChatOutcome)
    (tracer : Option Unit) (sched : Nat → Option Nat) (fuel : Nat)
    (hstuck : Nat)
    (hmem : hstuck < (refined texts).length)
    (hsched : ∀ i, sched i ≠ some hstuck) :
    (batchRun texts start end_ outcomes tracer sched fuel).isDone = false ∧
    (tracer = some () →
      (batchRun texts start end_ outcomes tracer sched fuel).isRunning
        = true) := by
  have hm0 : hstuck ∈ (initState ⟨texts, start, end_, outcomes⟩).unready := by
    simp only [initState, BatchEnv.numJobs, List.mem_range]
    exact hmem
  constructor
  · exact loopGo_not_done_of_stuck hsched fuel _ hm0
  · rintro rfl
    exact loopGo_running_of_stuck hsched fuel _ hm0

/-- Witness for C7: a two-job batch where job 0 becomes ready at the
first iteration and completes, while handle 1 is never reported ready;
after seven iterations the loop is still running and has produced no
result list. -/
theorem stuck_unit_stalls_batch_witness :
    1 < (refined ["Acme", "Stuck"]).length ∧
    (∀ i : Nat, schedOnly0 i ≠ some 1) ∧
    ((batchRun ["Acme", "Stuck"] 0 0 outcAllOk (some ()) schedOnly0 7).isDone
        = false ∧
      ((some () : Option Unit) = some () →
        (batchRun ["Acme", "Stuck"] 0 0 outcAllOk (some ())
          schedOnly0 7).isRunning = true)) :=
  ⟨by decide,
    fun i => by by_cases hi : i = 0 <;> simp [schedOnly0, hi],
    stuck_unit_stalls_batch ["Acme", "Stuck"] 0 0 outcAllOk (some ())
      schedOnly0 7 1 (by decide)
      (fun i => by by_cases hi : i = 0 <;> simp [schedOnly0, hi])⟩

/-- Claim C8: at every point the loop reaches, the completed counter
equals the length of the results list, each result is the fetched outcome
of its recorded handle, and a handle is pending or drained exactly when
it was submitted (the union of pending and drained handles is the set of
all submitted handles). -/
theorem batch_state_invariant
    (texts : List String) (start end_ : Int) (outcomes : Nat → ChatOutcome)
    (tracer : Option Unit) (sched : Nat → Option Nat) (n : Nat)
    (s : LoopState) (hdl : Nat)
    (hreach : stepsN ⟨texts, start, end_, outcomes⟩ tracer sched n
      (initState ⟨texts, start, end_, outcomes⟩) = .ok s) :
    s.completed = s.results.length ∧
    s.results = s.done.map (rayGet ⟨texts, start, end_, outcomes⟩) ∧
    ((hdl ∈ s.unready ∨ hdl ∈ s.done) ↔ hdl < (refined texts).length) := by
  obtain ⟨h1, h2, h3⟩ := stepsN_ok_wf (wf_init _) hreach
  refine ⟨h1, h2, ?_⟩
  have hmem : hdl ∈ s.unready ++ s.done ↔ hdl ∈ List.range
      (⟨texts, start, end_, outcomes⟩ : BatchEnv).numJobs := h3.mem_iff
  rw [List.mem_append, List.mem_range] at hmem
  exact hmem

/-- Witness for C8: the state after one productive iteration of the
two-job run satisfies the invariant. -/
theorem batch_state_invariant_witness :
    stepsN ⟨["Acme", "Globex"], 0, 0, outcAllOk⟩ (some ()) schedSeq 1
      (initState ⟨["Acme", "Globex"], 0, 0, outcAllOk⟩) = .ok witMidState ∧
    (witMidState.completed = witMidState.results.length ∧
      witMidState.results = witMidState.done.map
        (rayGet ⟨["Acme", "Globex"], 0, 0, outcAllOk⟩) ∧
      ((0 ∈ witMidState.unready ∨ 0 ∈ witMidState.done) ↔
        0 < (refined ["Acme", "Globex"]).length)) :=
  ⟨rfl,
    batch_state_invariant ["Acme", "Globex"] 0 0 outcAllOk (some ())
      schedSeq 1 witMidState 0 rfl⟩

/-- Counterexample to claim C9 as stated: the fixed one-second sleep is
not introduced at the empty-branch point — a productive first iteration
(one job completed, zero empty iterations) has already incurred one
sleep, because `asyncio.sleep(1)` (src line 183) runs at the end of every
iteration, outside the `if ready:` branch. -/
theorem sleep_incurred_on_ready_iteration :
    (stepState (step ⟨["Acme"], 0, 0, outcAllOk⟩ (some ()) schedSeq
        (initState ⟨["Acme"], 0, 0, outcAllOk⟩))).map
      (fun s => (s.completed, s.emptyIters, s.sleeps)) = some (1, 0, 1) := by
  decide

/-- Claim C9 as amended: the fixed one-second sleep is incurred on every
iteration — in particular also when `ray.wait` returned a ready handle
(see the counterexample) — and on an iteration whose `ray.wait` returned
no ready handle the loop takes no other action beyond the already-elapsed
timeout and that sleep: pending handles, drained handles, counter,
results and events are all unchanged. -/
theorem empty_branch_sleeps_only
    (texts : List String) (start end_ : Int) (outcomes : Nat → ChatOutcome)
    (tracer : Option Unit) (sched : Nat → Option Nat) (s s1 : LoopState)
    (hok : step ⟨texts, start, end_, outcomes⟩ tracer sched s = .ok s1)
    (hempty : (rayWait sched s.iter s.unready).1 = []) :
    s1.sleeps = s.sleeps + 1 ∧ s1.unready = s.unready ∧ s1.done = s.done ∧
    s1.completed = s.completed ∧ s1.results = s.results ∧
    s1.events = s.events ∧ s1.iter = s.iter + 1 ∧
    s1.emptyIters = s.emptyIters + 1 := by
  cases hr : rayWait sched s.iter s.unready with
  | mk ready rest =>
    rw [hr] at hempty
    have hready : ready = [] := hempty
    subst hready
    unfold step at hok
    rw [hr] at hok
    have hs1 : emptyNext s = s1 := Except.ok.inj hok
    subst hs1
    simp [emptyNext]

/-- Witness for the amended C9: one unproductive iteration of a one-job
run sleeps once and changes nothing else. -/
theorem empty_branch_sleeps_only_witness :
    step ⟨["Acme"], 0, 0, outcAllOk⟩ (some ()) schedNever
      (initState ⟨["Acme"], 0, 0, outcAllOk⟩) = .ok witEmptyState ∧
    (rayWait schedNever (initState ⟨["Acme"], 0, 0, outcAllOk⟩).iter
      (initState ⟨["Acme"], 0, 0, outcAllOk⟩).unready).1 = [] ∧
    (witEmptyState.sleeps
        = (initState ⟨["Acme"], 0, 0, outcAllOk⟩).sleeps + 1 ∧
      witEmptyState.unready = (initState ⟨["Acme"], 0, 0, outcAllOk⟩).unready ∧
      witEmptyState.done = (initState ⟨["Acme"], 0, 0, outcAllOk⟩).done ∧
      witEmptyState.completed
        = (initState ⟨["Acme"], 0, 0, outcAllOk⟩).completed ∧
      witEmptyState.results = (initState ⟨["Acme"], 0, 0, outcAllOk⟩).results ∧
      witEmptyState.events = (initState ⟨["Acme"], 0, 0, outcAllOk⟩).events ∧
      witEmptyState.iter = (initState ⟨["Acme"], 0, 0, outcAllOk⟩).iter + 1 ∧
      witEmptyState.emptyIters
        = (initState ⟨["Acme"], 0, 0, outcAllOk⟩).emptyIters + 1) :=
  ⟨rfl, by decide,
    empty_branch_sleeps_only ["Acme"] 0 0 outcAllOk (some ()) schedNever
      (initState ⟨["Acme"], 0, 0, outcAllOk⟩) witEmptyState
      rfl (by decide)⟩

/-- Claim C10: calling `batch` directly with a texts list containing no
non-empty line after trimming submits no work (zero handles), enters zero
loop iterations and sleeps zero times, and returns the empty list
normally — no validation error is raised, with or without a tracer,
because the non-empty-input check lives only in the entry point. -/
theorem batch_blank_input_returns_empty
    (texts : List String) (start end_ : Int) (outcomes : Nat → ChatOutcome)
    (tracer : Option Unit) (sched : Nat → Option Nat) (fuel : Nat)
    (hblank : refined texts = []) :
    batchRun texts start end_ outcomes tracer sched fuel
      = .done [] (initState ⟨texts, start, end_, outcomes⟩) ∧
    (initState ⟨texts, start, end_, outcomes⟩).iter = 0 ∧
    (initState ⟨texts, start, end_, outcomes⟩).sleeps = 0 ∧
    List.range (refined texts).length = [] := by
  have hun : (initState ⟨texts, start, end_, outcomes⟩).unready = [] := by
    simp [initState, BatchEnv.numJobs, hblank]
  refine ⟨?_, rfl, rfl, by simp [hblank]⟩
  show loopGo ⟨texts, start, end_, outcomes⟩ tracer sched fuel
    (initState ⟨texts, start, end_, outcomes⟩) = _
  cases fuel with
  | zero => simp [loopGo, hun, initState, BatchEnv.numJobs, hblank]
  | succ n => simp [loopGo, hun, initState, BatchEnv.numJobs, hblank]

/-- Witness for C10: two blank lines, no tracer; `batch` returns the
empty list with no iteration and no error. -/
theorem batch_blank_input_returns_empty_witness :
    refined ["", "  "] = [] ∧
    (batchRun ["", "  "] 0 0 outcAllOk none schedSeq 3
      = .done [] (initState ⟨["", "  "], 0, 0, outcAllOk⟩) ∧
      (initState ⟨["", "  "], 0, 0, outcAllOk⟩).iter = 0 ∧
      (initState ⟨["", "  "], 0, 0, outcAllOk⟩).sleeps = 0 ∧
      List.range (refined ["", "  "]).length = []) :=
  ⟨by decide,
    batch_blank_input_returns_empty ["", "  "] 0 0 outcAllOk none schedSeq 3
      (by decide)⟩

end CompanyNews
